import Mathlib

/-!
Verification of the messaging/matching core of the GrinderClone repository.

The persistence layer (src/server/storage.ts) is embedded shallowly: each
database table becomes a Lean list held in a `Store` record, in insertion
order; serial primary keys are modelled with explicit counters; `ORDER BY`
is modelled as a stable insertion sort over the table in insertion order;
timestamps are naturals supplied by the caller (the code passes
`new Date()` / column defaults).  The HTTP route handlers
(src/server/routes.ts) and the WebSocket lifecycle handlers are embedded as
functions over `Store` (respectively over `SysState`, which adds the list
of live WebSocket connections).
-/

/-- Row of the `users` table (src/unnamed/part_000, `users`).  Only the
columns the verified operations touch are carried. -/
structure User where
  id : String
  email : Option String := none
  firstName : Option String := none
  lastName : Option String := none
deriving Repr, DecidableEq

/-- Row of the `profiles` table restricted to the presence columns used by
`updateOnlineStatus` (src/unnamed/part_000, `profiles`). -/
structure Profile where
  id : Nat
  userId : String
  isOnline : Bool
  lastSeen : Nat
  updatedAt : Nat
deriving Repr, DecidableEq

/-- Row of the `messages` table (src/unnamed/part_000, `messages`). -/
structure Msg where
  id : Nat
  senderId : String
  receiverId : String
  content : String
  isRead : Bool
  createdAt : Nat
deriving Repr, DecidableEq

/-- Row of the `likes` table (src/unnamed/part_000, `likes`).  Note the
table has a serial primary key and NO unique constraint on
`(likerId, likedId)`. -/
structure Like where
  id : Nat
  likerId : String
  likedId : String
  createdAt : Nat
deriving Repr, DecidableEq

/-- Row of the `blocks` table (src/unnamed/part_000, `blocks`). -/
structure Block where
  id : Nat
  blockerId : String
  blockedId : String
  createdAt : Nat
deriving Repr, DecidableEq

/-- The database state: each table as a list in insertion order, plus the
serial-id counters for the two tables whose generated ids matter here. -/
structure Store where
  users : List User
  profiles : List Profile
  messages : List Msg
  likes : List Like
  blocks : List Block
  nextMessageId : Nat
  nextLikeId : Nat
deriving Repr, DecidableEq

/-- `MessageWithUsers` (src/unnamed/part_000): a message row together with
the joined sender and receiver user records.  The join can miss (left
join), hence `Option`. -/
structure MessageWithUsers where
  msg : Msg
  sender : Option User
  receiver : Option User
deriving Repr, DecidableEq

/-- `leftJoin(users, eq(users.id, ...))`: first user row with the given id. -/
def findUser (s : Store) (uid : String) : Option User :=
  s.users.find? fun u => u.id == uid

/-- Stable insertion step: `x` is placed before the first element `y` that
does not strictly precede it (`lt y x = false`), hence before elements with
an equal sort key.  Used to model SQL `ORDER BY` as a stable sort. -/
def insertSorted (lt : Msg → Msg → Bool) (x : Msg) : List Msg → List Msg
  | [] => [x]
  | y :: ys => if lt y x then y :: insertSorted lt x ys else x :: y :: ys

/-- Stable insertion sort over a message list, modelling `ORDER BY`. -/
def sortMsgs (lt : Msg → Msg → Bool) : List Msg → List Msg
  | [] => []
  | x :: xs => insertSorted lt x (sortMsgs lt xs)

/-- `asc(messages.createdAt)`: strict precedence for ascending order. -/
def ltAsc (a b : Msg) : Bool := decide (a.createdAt < b.createdAt)

/-- `desc(messages.createdAt)`: strict precedence for descending order. -/
def ltDesc (a b : Msg) : Bool := decide (b.createdAt < a.createdAt)

/-- `DatabaseStorage.sendMessage` (src/server/storage.ts:259): insert the
message row, returning it with the generated id; `isRead` defaults to
`false` and `createdAt` to the current time per the column defaults. -/
def sendMessage (s : Store) (senderId receiverId content : String) (now : Nat) :
    Msg × Store :=
  let m : Msg :=
    { id := s.nextMessageId, senderId := senderId, receiverId := receiverId,
      content := content, isRead := false, createdAt := now }
  (m, { s with messages := s.messages ++ [m], nextMessageId := s.nextMessageId + 1 })

/-- `POST /api/messages` (src/server/routes.ts:125): the body is parsed by
`insertMessageSchema`, which only checks column types (the `content` column
is a plain string with no emptiness check), and no block lookup is made;
the handler then calls `sendMessage`.  The WebSocket fan-out does not touch
the store, so it is omitted from the state transition. -/
def postMessages (s : Store) (senderId receiverId content : String) (now : Nat) :
    Msg × Store :=
  sendMessage s senderId receiverId content now

/-- `DatabaseStorage.getConversation` (src/server/storage.ts:267): both
directions between the two users, ordered by `asc(createdAt)` only, each
row left-joined with `users` ON `users.id = messages.senderId`, and BOTH
the `sender` and the `receiver` field of the result are filled from that
single join (`row.users!` twice). -/
def getConversation (s : Store) (userId1 userId2 : String) : List MessageWithUsers :=
  (sortMsgs ltAsc (s.messages.filter fun m =>
      decide ((m.senderId = userId1 ∧ m.receiverId = userId2) ∨
              (m.senderId = userId2 ∧ m.receiverId = userId1)))).map
    fun m => { msg := m, sender := findUser s m.senderId, receiver := findUser s m.senderId }

/-- The `otherUserId` computation of `getConversations`
(src/server/storage.ts:306). -/
def otherUser (userId : String) (m : Msg) : String :=
  if m.senderId = userId then m.receiverId else m.senderId

/-- The `conversationMap` grouping of `getConversations`: walk the rows in
order, keep a row only if its key was not seen before (JavaScript `Map`
preserves key insertion order, so kept rows stay in list order). -/
def dedupeByKey (key : Msg → String) : List Msg → List String → List Msg
  | [], _ => []
  | m :: ms, seen =>
    if key m ∈ seen then dedupeByKey key ms seen
    else m :: dedupeByKey key ms (key m :: seen)

/-- `DatabaseStorage.getConversations` (src/server/storage.ts:287): all
messages the user sent or received, ordered by `desc(createdAt)`, grouped
by the counterpart keeping only the first (latest) row per counterpart;
as in `getConversation`, both user fields come from the sender join. -/
def getConversations (s : Store) (userId : String) : List MessageWithUsers :=
  (dedupeByKey (otherUser userId)
      (sortMsgs ltDesc (s.messages.filter fun m =>
        decide (m.senderId = userId ∨ m.receiverId = userId))) []).map
    fun m => { msg := m, sender := findUser s m.senderId, receiver := findUser s m.senderId }

/-- `DatabaseStorage.markMessageAsRead` (src/server/storage.ts:320): an
UPDATE whose WHERE clause requires both the message id and
`receiverId = userId`; rows not matching are untouched, and no error is
raised in any case. -/
def markMessageAsRead (s : Store) (messageId : Nat) (userId : String) : Store :=
  { s with messages := s.messages.map fun m =>
      if m.id = messageId ∧ m.receiverId = userId then { m with isRead := true } else m }

/-- Error taxonomy of spec section 7, used only by spec-modelled
definitions for refinement comparison. -/
inductive ApiErr
  | invalidArgument
  | forbidden
  | notFound
  | conflict
deriving Repr, DecidableEq

/-- Modelled from the spec: the spec (section 4.4 and section 8) requires a
`markRead(messageId, readerId)` that flips `isRead` only when
`readerId == receiverId` and otherwise FAILS with `Forbidden`; no such
failure path exists in the repository, so this definition follows the
spec words for comparison with `markMessageAsRead`. -/
def markReadSpec (s : Store) (messageId : Nat) (readerId : String) :
    Except ApiErr Store :=
  match s.messages.find? fun m => m.id == messageId with
  | none => Except.error ApiErr.notFound
  | some m =>
    if m.receiverId = readerId then
      Except.ok { s with messages := s.messages.map fun m2 =>
        if m2.id = messageId then { m2 with isRead := true } else m2 }
    else Except.error ApiErr.forbidden

/-- `DatabaseStorage.addLike` (src/server/storage.ts:333): a plain INSERT
returning the new row; there is no conflict target and the table has no
unique constraint on the pair, so every call inserts a fresh row. -/
def addLike (s : Store) (likerId likedId : String) (now : Nat) : Like × Store :=
  let l : Like :=
    { id := s.nextLikeId, likerId := likerId, likedId := likedId, createdAt := now }
  (l, { s with likes := s.likes ++ [l], nextLikeId := s.nextLikeId + 1 })

/-- `DatabaseStorage.removeLike` (src/server/storage.ts:341): DELETE of all
rows with the given ordered pair; deleting nothing is not an error. -/
def removeLike (s : Store) (likerId likedId : String) : Store :=
  { s with likes := s.likes.filter fun l =>
      decide (¬(l.likerId = likerId ∧ l.likedId = likedId)) }

/-- `DatabaseStorage.getMutualLikes` (src/server/storage.ts:360): likedIds
of the rows whose liker is the user and for which the reverse edge exists
(the EXISTS subquery). -/
def getMutualLikes (s : Store) (userId : String) : List String :=
  (s.likes.filter fun l =>
      decide (l.likerId = userId ∧
        ∃ l2 ∈ s.likes, l2.likerId = l.likedId ∧ l2.likedId = l.likerId)).map
    fun l => l.likedId

/-- `POST /api/likes` (src/server/routes.ts:160): insert the like, then
compute `isMatch` as membership of the liked user in
`getMutualLikes(liker)` evaluated on the post-insert store. -/
def postLikes (s : Store) (userId likedId : String) (now : Nat) :
    (Like × Bool) × Store :=
  let r := addLike s userId likedId now
  ((r.1, decide (likedId ∈ getMutualLikes r.2 userId)), r.2)

/-- `DELETE /api/likes/:likedId` (src/server/routes.ts:181): calls
`removeLike` and unconditionally answers `{success: true}`. -/
def deleteLikesRoute (s : Store) (userId likedId : String) : Bool × Store :=
  (true, removeLike s userId likedId)

/-- `DatabaseStorage.updateOnlineStatus` (src/server/storage.ts:406):
UPDATE of every profile row of the user, setting `isOnline`, `lastSeen`
and `updatedAt`. -/
def updateOnlineStatus (s : Store) (userId : String) (isOnline : Bool) (now : Nat) :
    Store :=
  { s with profiles := s.profiles.map fun p =>
      if p.userId = userId then
        { p with isOnline := isOnline, lastSeen := now, updatedAt := now }
      else p }

/-- A live WebSocket connection: transport id plus the `ws.userId` field
set by the auth frame (src/server/routes.ts:245). -/
structure Conn where
  id : Nat
  userId : Option String
deriving Repr, DecidableEq

/-- Server state seen by the WebSocket handlers: the set of live
connections (`wss.clients`) and the database. -/
structure SysState where
  conns : List Conn
  store : Store
deriving Repr, DecidableEq

/-- `wss.on(connection)` (src/server/routes.ts:236): a new connection with
no user bound; no registry entry, no store write. -/
def wsConnect (st : SysState) (cid : Nat) : SysState :=
  { st with conns := st.conns ++ [{ id := cid, userId := none }] }

/-- The auth frame handler (src/server/routes.ts:243): set `ws.userId` and
write the user online.  The handler runs on an existing connection, hence
the lookup guard. -/
def wsAuth (st : SysState) (cid : Nat) (uid : String) (now : Nat) : SysState :=
  match st.conns.find? fun c => c.id == cid with
  | none => st
  | some _ =>
    { conns := st.conns.map fun c =>
        if c.id = cid then { c with userId := some uid } else c,
      store := updateOnlineStatus st.store uid true now }

/-- The close handler (src/server/routes.ts:257): if the connection had a
bound user, write that user offline — unconditionally, with no check for
other live connections of the same user; the transport then drops the
connection from `wss.clients`. -/
def wsClose (st : SysState) (cid : Nat) (now : Nat) : SysState :=
  match st.conns.find? fun c => c.id == cid with
  | none => st
  | some c =>
    { conns := st.conns.filter fun c2 => decide (¬ c2.id = cid),
      store :=
        match c.userId with
        | some u => updateOnlineStatus st.store u false now
        | none => st.store }

/-- Strict lexicographic order on `(createdAt, id)`: the ordering the spec
asserts for conversation listings. -/
def msgLex (a b : Msg) : Prop :=
  a.createdAt < b.createdAt ∨ (a.createdAt = b.createdAt ∧ a.id < b.id)

instance : DecidableRel msgLex := fun a b => by
  unfold msgLex
  infer_instance

/-- A string that is empty or consists only of whitespace characters; the
condition the spec wants the message pipeline to reject. -/
def isBlank (s : String) : Bool := s.data.all Char.isWhitespace

/-- An empty database. -/
def emptyStore : Store :=
  { users := [], profiles := [], messages := [], likes := [], blocks := [],
    nextMessageId := 1, nextLikeId := 1 }

/-- Demo database for the conversation claims: users a and b and three
messages sent in the order M1(a to b), M2(b to a), M3(a to b). -/
def convDemoStore : Store :=
  (sendMessage (sendMessage (sendMessage
    { emptyStore with users := [{ id := "a" }, { id := "b" }] }
    "a" "b" "hello" 1).2 "b" "a" "hey" 2).2 "a" "b" "supper" 3).2

/-- The first row returned by `getConversation convDemoStore "a" "b"`. -/
def convDemoRow : MessageWithUsers :=
  { msg := { id := 1, senderId := "a", receiverId := "b", content := "hello",
             isRead := false, createdAt := 1 },
    sender := some { id := "a" }, receiver := some { id := "a" } }

/-- Demo database for the presence claims: one profile row for user u. -/
def presenceDemoStore : Store :=
  { emptyStore with profiles :=
      [{ id := 1, userId := "u", isOnline := false, lastSeen := 0, updatedAt := 0 }] }

/-- Two connections opened and authenticated for user u (connection 1 at
time 10, connection 2 at time 20), neither closed yet. -/
def presenceBeforeClose : SysState :=
  wsAuth (wsConnect (wsAuth (wsConnect { conns := [], store := presenceDemoStore } 1)
    1 "u" 10) 2) 2 "u" 20

/-- Demo database for the read-receipt claim: one unread message from a
to b. -/
def readDemoStore : Store :=
  { emptyStore with
      messages := [{ id := 1, senderId := "a", receiverId := "b", content := "hi",
                     isRead := false, createdAt := 1 }],
      nextMessageId := 2 }

/-- Demo database for the block claim: block edges in both directions
between a and b. -/
def blockDemoStore : Store :=
  { emptyStore with blocks :=
      [{ id := 1, blockerId := "a", blockedId := "b", createdAt := 0 },
       { id := 2, blockerId := "b", blockedId := "a", createdAt := 0 }] }

/-- Demo database for the like claims: user b already likes user a. -/
def mutualDemoStore : Store :=
  { emptyStore with
      likes := [{ id := 1, likerId := "b", likedId := "a", createdAt := 0 }],
      nextLikeId := 2 }

/-- Demo database for the unlike claim: a single like edge from x to y. -/
def likeDemoStore : Store :=
  { emptyStore with
      likes := [{ id := 1, likerId := "x", likedId := "y", createdAt := 0 }],
      nextLikeId := 2 }

/-! ## Helper lemmas about the stable sort and the grouping -/

theorem mem_insertSorted (lt : Msg → Msg → Bool) (x a : Msg) (l : List Msg) :
    a ∈ insertSorted lt x l ↔ a = x ∨ a ∈ l := by
  induction l with
  | nil => simp [insertSorted]
  | cons y ys ih =>
    simp only [insertSorted]
    by_cases h : lt y x
    · simp only [if_pos h, List.mem_cons, ih]
      tauto
    · simp only [if_neg h, List.mem_cons]

theorem mem_sortMsgs (lt : Msg → Msg → Bool) (a : Msg) (l : List Msg) :
    a ∈ sortMsgs lt l ↔ a ∈ l := by
  induction l with
  | nil => simp [sortMsgs]
  | cons x xs ih => simp [sortMsgs, mem_insertSorted, ih]

theorem pairwise_insertSorted (lt : Msg → Msg → Bool) (R : Msg → Msg → Prop)
    (htrans : ∀ a b c, R a b → R b c → R a c)
    (x : Msg) (l : List Msg) (hl : l.Pairwise R)
    (h1 : ∀ y ∈ l, lt y x = true → R y x)
    (h2 : ∀ y ∈ l, lt y x = false → R x y) :
    (insertSorted lt x l).Pairwise R := by
  induction l with
  | nil => simp [insertSorted]
  | cons y ys ih =>
    rcases List.pairwise_cons.mp hl with ⟨hy, hys⟩
    by_cases h : lt y x
    · simp only [insertSorted, if_pos h]
      refine List.pairwise_cons.mpr ⟨?_, ?_⟩
      · intro z hz
        rcases (mem_insertSorted lt x z ys).mp hz with rfl | hz2
        · exact h1 y (by simp) h
        · exact hy z hz2
      · exact ih hys (fun y2 hy2 h2' => h1 y2 (by simp [hy2]) h2')
          (fun y2 hy2 h2' => h2 y2 (by simp [hy2]) h2')
    · have hfalse : lt y x = false := by simpa using h
      simp only [insertSorted, if_neg h]
      refine List.pairwise_cons.mpr ⟨?_, hl⟩
      intro z hz
      rcases List.mem_cons.mp hz with rfl | hz2
      · exact h2 z (by simp) hfalse
      · exact htrans x y z (h2 y (by simp) hfalse) (hy z hz2)

theorem pairwise_sortMsgs (lt : Msg → Msg → Bool) (R : Msg → Msg → Prop)
    (htrans : ∀ a b c, R a b → R b c → R a c)
    (h1 : ∀ a b, lt a b = true → R a b)
    (h2 : ∀ a b, lt a b = false → R b a)
    (l : List Msg) : (sortMsgs lt l).Pairwise R := by
  induction l with
  | nil => simp [sortMsgs]
  | cons x xs ih =>
    exact pairwise_insertSorted lt R htrans x _ ih
      (fun y _ hy => h1 y x hy) (fun y _ hy => h2 y x hy)

theorem msgLex_trans (a b c : Msg) : msgLex a b → msgLex b c → msgLex a c := by
  unfold msgLex
  omega

theorem sortAsc_pairwise_lex (l : List Msg)
    (hid : l.Pairwise fun a b => a.id < b.id) :
    (sortMsgs ltAsc l).Pairwise msgLex := by
  induction l with
  | nil => simp [sortMsgs]
  | cons x xs ih =>
    rcases List.pairwise_cons.mp hid with ⟨hx, hxs⟩
    refine pairwise_insertSorted ltAsc msgLex msgLex_trans x _ (ih hxs) ?_ ?_
    · intro y _ hlt
      have : y.createdAt < x.createdAt := by simpa [ltAsc] using hlt
      exact Or.inl this
    · intro y hy hlt
      have hmem : y ∈ xs := (mem_sortMsgs ltAsc y xs).mp hy
      have hle : ¬ y.createdAt < x.createdAt := by simpa [ltAsc] using hlt
      have hidlt : x.id < y.id := hx y hmem
      unfold msgLex
      omega

theorem sortDesc_pairwise (l : List Msg) :
    (sortMsgs ltDesc l).Pairwise fun a b => b.createdAt ≤ a.createdAt := by
  refine pairwise_sortMsgs ltDesc (fun a b => b.createdAt ≤ a.createdAt)
    (fun a b c h1 h2 => Nat.le_trans h2 h1) ?_ ?_ l
  · intro a b h
    have : b.createdAt < a.createdAt := by simpa [ltDesc] using h
    omega
  · intro a b h
    have : ¬ b.createdAt < a.createdAt := by simpa [ltDesc] using h
    omega

theorem dedupe_sublist (key : Msg → String) (l : List Msg) (seen : List String) :
    (dedupeByKey key l seen).Sublist l := by
  induction l generalizing seen with
  | nil => simp [dedupeByKey]
  | cons m ms ih =>
    simp only [dedupeByKey]
    by_cases h : key m ∈ seen
    · simp only [if_pos h]
      exact (ih seen).cons m
    · simp only [if_neg h]
      exact (ih (key m :: seen)).cons₂ m

theorem dedupe_key_not_seen (key : Msg → String) (l : List Msg) (seen : List String) :
    ∀ m ∈ dedupeByKey key l seen, key m ∉ seen := by
  induction l generalizing seen with
  | nil => simp [dedupeByKey]
  | cons m0 ms ih =>
    intro m hm
    simp only [dedupeByKey] at hm
    by_cases h : key m0 ∈ seen
    · rw [if_pos h] at hm
      exact ih seen m hm
    · rw [if_neg h] at hm
      rcases List.mem_cons.mp hm with rfl | hm2
      · exact h
      · have := ih (key m0 :: seen) m hm2
        intro hc
        exact this (List.mem_cons_of_mem _ hc)

theorem dedupe_keys_nodup (key : Msg → String) (l : List Msg) (seen : List String) :
    ((dedupeByKey key l seen).map key).Nodup := by
  induction l generalizing seen with
  | nil => simp [dedupeByKey]
  | cons m ms ih =>
    simp only [dedupeByKey]
    by_cases h : key m ∈ seen
    · simpa [if_pos h] using ih seen
    · simp only [if_neg h, List.map_cons]
      refine List.nodup_cons.mpr ⟨?_, ih (key m :: seen)⟩
      intro hmem
      rcases List.mem_map.mp hmem with ⟨m2, hm2, hkey⟩
      have hnot := dedupe_key_not_seen key ms (key m :: seen) m2 hm2
      exact hnot (by simp [hkey])

theorem dedupe_covers (key : Msg → String) (l : List Msg) (seen : List String) :
    ∀ m ∈ l, key m ∉ seen → ∃ r ∈ dedupeByKey key l seen, key r = key m := by
  induction l generalizing seen with
  | nil => simp
  | cons m0 ms ih =>
    intro m hm hns
    simp only [dedupeByKey]
    by_cases h : key m0 ∈ seen
    · rw [if_pos h]
      rcases List.mem_cons.mp hm with rfl | hm2
      · exact absurd h hns
      · exact ih seen m hm2 hns
    · rw [if_neg h]
      rcases List.mem_cons.mp hm with rfl | hm2
      · exact ⟨m, by simp, rfl⟩
      · by_cases hk : key m = key m0
        · exact ⟨m0, by simp, hk.symm⟩
        · have hns2 : key m ∉ key m0 :: seen := by
            intro hc
            rcases List.mem_cons.mp hc with hc1 | hc2
            · exact hk hc1
            · exact hns hc2
          rcases ih (key m0 :: seen) m hm2 hns2 with ⟨r, hr, hkr⟩
          exact ⟨r, List.mem_cons_of_mem _ hr, hkr⟩

theorem dedupe_max (key : Msg → String) (l : List Msg) :
    ∀ seen : List String,
      l.Pairwise (fun a b => b.createdAt ≤ a.createdAt) →
      ∀ m ∈ dedupeByKey key l seen, ∀ m2 ∈ l, key m2 = key m →
        m2.createdAt ≤ m.createdAt := by
  induction l with
  | nil => simp
  | cons m0 ms ih =>
    intro seen hl m hm m2 hm2 hk
    rcases List.pairwise_cons.mp hl with ⟨h0, hms⟩
    simp only [dedupeByKey] at hm
    by_cases h : key m0 ∈ seen
    · rw [if_pos h] at hm
      rcases List.mem_cons.mp hm2 with rfl | hm2b
      · have := dedupe_key_not_seen key ms seen m hm
        rw [hk] at h
        exact absurd h this
      · exact ih seen hms m hm m2 hm2b hk
    · rw [if_neg h] at hm
      rcases List.mem_cons.mp hm with rfl | hmb
      · rcases List.mem_cons.mp hm2 with rfl | hm2b
        · exact le_refl _
        · exact h0 m2 hm2b
      · have hns := dedupe_key_not_seen key ms (key m0 :: seen) m hmb
        rcases List.mem_cons.mp hm2 with rfl | hm2b
        · exfalso
          exact hns (by simp [hk])
        · exact ih (key m0 :: seen) hms m hmb m2 hm2b hk

theorem mem_getMutualLikes (s : Store) (u x : String) :
    x ∈ getMutualLikes s u ↔
      ∃ l ∈ s.likes, l.likerId = u ∧ l.likedId = x ∧
        ∃ l2 ∈ s.likes, l2.likerId = x ∧ l2.likedId = u := by
  unfold getMutualLikes
  constructor
  · intro h
    rcases List.mem_map.mp h with ⟨l, hl, hx⟩
    rcases List.mem_filter.mp hl with ⟨hmem, hP⟩
    rcases of_decide_eq_true hP with ⟨hA, l2, hl2, h21, h22⟩
    subst hx
    exact ⟨l, hmem, hA, rfl, l2, hl2, h21, by rw [← hA]; exact h22⟩
  · rintro ⟨l, hmem, hA, hx, l2, hl2, h21, h22⟩
    refine List.mem_map.mpr ⟨l, List.mem_filter.mpr ⟨hmem, decide_eq_true ?_⟩, hx⟩
    refine ⟨hA, l2, hl2, ?_, ?_⟩
    · rw [hx]; exact h21
    · rw [hA]; exact h22

/-! ## Claim theorems -/

/-- C1: `POST /api/likes` (addLike then the mutual-like check) returns
`isMatch = true` iff, in the likes store at the moment of the check (the
post-insert store), the reverse edge (B, A) exists. -/
theorem postLikes_isMatch_iff (s : Store) (A B : String) (now : Nat) :
    (postLikes s A B now).1.2 = true ↔
      ∃ l ∈ ((postLikes s A B now).2).likes, l.likerId = B ∧ l.likedId = A := by
  have hmatch : (postLikes s A B now).1.2 =
      decide (B ∈ getMutualLikes (postLikes s A B now).2 A) := rfl
  rw [hmatch, decide_eq_true_eq, mem_getMutualLikes]
  constructor
  · rintro ⟨l, hmem, _, _, l2, hl2, h21, h22⟩
    exact ⟨l2, hl2, h21, h22⟩
  · rintro ⟨l2, hl2, h21, h22⟩
    refine ⟨{ id := s.nextLikeId, likerId := A, likedId := B, createdAt := now },
      ?_, rfl, rfl, l2, hl2, h21, h22⟩
    show _ ∈ s.likes ++ [_]
    simp

/-- C1 witness: in a store where b already likes a, a liking b reports a
match. -/
theorem postLikes_isMatch_iff_witness :
    (postLikes mutualDemoStore "a" "b" 5).1.2 = true :=
  (postLikes_isMatch_iff mutualDemoStore "a" "b" 5).mpr
    ⟨{ id := 1, likerId := "b", likedId := "a", createdAt := 0 }, by decide, rfl, rfl⟩

/-- C2 counterexample: two `addLike` calls on the same ordered pair leave
TWO stored like edges for it (the insert has no conflict handling and the
table no unique constraint), contradicting the claim that there can never
be two stored edges. -/
theorem addLike_twice_counterexample :
    (((addLike (addLike emptyStore "a" "b" 0).2 "a" "b" 1).2).likes.filter fun l =>
        decide (l.likerId = "a" ∧ l.likedId = "b")).length = 2 := by
  decide

/-- C2 amended: recording a like is NOT idempotent: every `addLike` call
inserts a fresh row, so two calls on the same ordered pair add exactly two
stored edges for that pair. -/
theorem addLike_twice_adds_two (s : Store) (a b : String) (t1 t2 : Nat) :
    (((addLike (addLike s a b t1).2 a b t2).2).likes.filter fun l =>
        decide (l.likerId = a ∧ l.likedId = b)).length =
      (s.likes.filter fun l => decide (l.likerId = a ∧ l.likedId = b)).length + 2 := by
  simp [addLike, List.filter_append]

/-- C3 counterexample: with two authenticated connections for user u,
closing connection 1 alone already writes the persisted presence offline
(isOnline = false, lastSeen = the close time) although connection 2 is
still live and authenticated — the claim says presence must remain
online until the last connection closes. -/
theorem wsClose_first_conn_counterexample :
    (wsClose presenceBeforeClose 1 30).conns = [{ id := 2, userId := some "u" }] ∧
    (wsClose presenceBeforeClose 1 30).store.profiles =
      [{ id := 1, userId := "u", isOnline := false, lastSeen := 30, updatedAt := 30 }] := by
  decide

/-- C3 amended: closing ANY authenticated connection immediately writes
its user offline with lastSeen equal to that close time, regardless of
other live connections of the same user; the close handler does no
connection counting. -/
theorem wsClose_sets_offline (st : SysState) (cid : Nat) (c : Conn) (u : String)
    (now : Nat)
    (hc : st.conns.find? (fun c2 => c2.id == cid) = some c)
    (hu : c.userId = some u) :
    ∀ p ∈ (wsClose st cid now).store.profiles, p.userId = u →
      p.isOnline = false ∧ p.lastSeen = now := by
  intro p hp hpu
  unfold wsClose at hp
  rw [hc] at hp
  simp only [hu] at hp
  unfold updateOnlineStatus at hp
  simp only [] at hp
  rcases List.mem_map.mp hp with ⟨p0, _, rfl⟩
  by_cases h : p0.userId = u
  · rw [if_pos h]
    exact ⟨rfl, rfl⟩
  · rw [if_neg h] at hpu
    exact absurd hpu h

/-- C3 witness: instance of the amended theorem on the two-connection
demo trace, at the profile row the close produces. -/
theorem wsClose_sets_offline_witness :
    ({ id := 1, userId := "u", isOnline := false, lastSeen := 30, updatedAt := 30 }
        : Profile).isOnline = false ∧
    ({ id := 1, userId := "u", isOnline := false, lastSeen := 30, updatedAt := 30 }
        : Profile).lastSeen = 30 :=
  wsClose_sets_offline presenceBeforeClose 1 { id := 1, userId := some "u" } "u" 30
    (by decide) rfl
    { id := 1, userId := "u", isOnline := false, lastSeen := 30, updatedAt := 30 }
    (by decide) (by decide)

theorem getConversation_msgs (s : Store) (u1 u2 : String) :
    (getConversation s u1 u2).map (fun r => r.msg) =
      sortMsgs ltAsc (s.messages.filter fun m =>
        decide ((m.senderId = u1 ∧ m.receiverId = u2) ∨
                (m.senderId = u2 ∧ m.receiverId = u1))) := by
  unfold getConversation
  rw [List.map_map]
  exact List.map_id _

/-- C4: `getConversation` returns exactly the messages between the two
users in either direction, ordered ascending by createdAt with ties broken
by ascending id (the table rows carry strictly increasing serial ids and
the sort is stable); in particular, for M1(a to b), M2(b to a), M3(a to b)
inserted in that order it returns [M1, M2, M3]. -/
theorem getConversation_spec (s : Store) (u1 u2 : String)
    (hid : s.messages.Pairwise fun a b => a.id < b.id) :
    (∀ m : Msg, m ∈ (getConversation s u1 u2).map (fun r => r.msg) ↔
        (m ∈ s.messages ∧ ((m.senderId = u1 ∧ m.receiverId = u2) ∨
                           (m.senderId = u2 ∧ m.receiverId = u1))))
  ∧ ((getConversation s u1 u2).map (fun r => r.msg)).Pairwise msgLex
  ∧ (getConversation convDemoStore "a" "b").map (fun r => r.msg) =
      [{ id := 1, senderId := "a", receiverId := "b", content := "hello",
         isRead := false, createdAt := 1 },
       { id := 2, senderId := "b", receiverId := "a", content := "hey",
         isRead := false, createdAt := 2 },
       { id := 3, senderId := "a", receiverId := "b", content := "supper",
         isRead := false, createdAt := 3 }] := by
  refine ⟨?_, ?_, by decide⟩
  · intro m
    rw [getConversation_msgs, mem_sortMsgs, List.mem_filter, decide_eq_true_eq]
  · rw [getConversation_msgs]
    exact sortAsc_pairwise_lex _ (hid.filter _)

/-- C4 witness: the ordering conclusion instantiated on the three-message
demo store, whose rows have strictly increasing ids. -/
theorem getConversation_spec_witness :
    ((getConversation convDemoStore "a" "b").map (fun r => r.msg)).Pairwise msgLex :=
  (getConversation_spec convDemoStore "a" "b" (by decide)).2.1

theorem getConversations_msgs (s : Store) (u : String) :
    (getConversations s u).map (fun r => r.msg) =
      dedupeByKey (otherUser u)
        (sortMsgs ltDesc (s.messages.filter fun m =>
          decide (m.senderId = u ∨ m.receiverId = u))) [] := by
  unfold getConversations
  rw [List.map_map]
  exact List.map_id _

/-- C5: `getConversations` returns one entry per distinct conversation
partner (keys pairwise distinct and every partner covered), each entry a
message of that conversation with maximal createdAt, ordered by the entry
createdAt descending, with the partner computed as the other party
whichever direction the row has. -/
theorem getConversations_spec (s : Store) (u : String) :
    (((getConversations s u).map fun r => r.msg).map (otherUser u)).Nodup
  ∧ (∀ m ∈ s.messages, (m.senderId = u ∨ m.receiverId = u) →
       ∃ r ∈ (getConversations s u).map (fun r2 => r2.msg),
         otherUser u r = otherUser u m)
  ∧ (∀ r ∈ (getConversations s u).map (fun r2 => r2.msg),
       r ∈ s.messages ∧ (r.senderId = u ∨ r.receiverId = u) ∧
       ∀ m ∈ s.messages, (m.senderId = u ∨ m.receiverId = u) →
         otherUser u m = otherUser u r → m.createdAt ≤ r.createdAt)
  ∧ ((getConversations s u).map fun r => r.msg).Pairwise
      fun a b => b.createdAt ≤ a.createdAt := by
  rw [getConversations_msgs]
  refine ⟨dedupe_keys_nodup _ _ _, ?_, ?_, ?_⟩
  · intro m hm hinv
    have hmem : m ∈ sortMsgs ltDesc (s.messages.filter fun m2 =>
        decide (m2.senderId = u ∨ m2.receiverId = u)) :=
      (mem_sortMsgs _ _ _).mpr (List.mem_filter.mpr ⟨hm, decide_eq_true hinv⟩)
    exact dedupe_covers _ _ [] m hmem (by simp)
  · intro r hr
    have hrs : r ∈ sortMsgs ltDesc (s.messages.filter fun m2 =>
        decide (m2.senderId = u ∨ m2.receiverId = u)) :=
      (dedupe_sublist _ _ _).subset hr
    rcases List.mem_filter.mp ((mem_sortMsgs _ _ _).mp hrs) with ⟨hrm, hrp⟩
    refine ⟨hrm, of_decide_eq_true hrp, ?_⟩
    intro m hm hinv hkey
    have hmemS : m ∈ sortMsgs ltDesc (s.messages.filter fun m2 =>
        decide (m2.senderId = u ∨ m2.receiverId = u)) :=
      (mem_sortMsgs _ _ _).mpr (List.mem_filter.mpr ⟨hm, decide_eq_true hinv⟩)
    exact dedupe_max (otherUser u) _ [] (sortDesc_pairwise _) r hr m hmemS hkey
  · exact (sortDesc_pairwise _).sublist (dedupe_sublist _ _ _)

/-- C5 witness: the descending-order conclusion instantiated on the demo
store. -/
theorem getConversations_spec_witness :
    ((getConversations convDemoStore "a").map fun r => r.msg).Pairwise
      (fun a b => b.createdAt ≤ a.createdAt) :=
  (getConversations_spec convDemoStore "a").2.2.2

/-- C6 counterexample: `POST /api/messages` with empty content persists a
message (the schema is a plain string check with no emptiness rule),
contradicting the claim that the request fails and persists nothing. -/
theorem postMessages_empty_content_counterexample :
    ((postMessages emptyStore "a" "b" "" 0).2).messages =
      [{ id := 1, senderId := "a", receiverId := "b", content := "",
         isRead := false, createdAt := 0 }] := by
  decide

/-- C6 amended: the send-message route performs no content validation:
even an empty or whitespace-only content string is accepted and exactly
one message carrying that content is persisted. -/
theorem postMessages_accepts_blank_content (s : Store) (a b content : String)
    (now : Nat) ( _hws : isBlank content = true) :
    ((postMessages s a b content now).2).messages.length = s.messages.length + 1
  ∧ (postMessages s a b content now).1.content = content
  ∧ (postMessages s a b content now).1 ∈ ((postMessages s a b content now).2).messages := by
  refine ⟨?_, rfl, ?_⟩
  · simp [postMessages, sendMessage]
  · simp [postMessages, sendMessage]

/-- C6 witness: the amended theorem at the empty content string. -/
theorem postMessages_accepts_blank_content_witness :
    ((postMessages emptyStore "c" "d" "" 5).2).messages.length =
        emptyStore.messages.length + 1
  ∧ (postMessages emptyStore "c" "d" "" 5).1.content = ""
  ∧ (postMessages emptyStore "c" "d" "" 5).1 ∈
      ((postMessages emptyStore "c" "d" "" 5).2).messages :=
  postMessages_accepts_blank_content emptyStore "c" "d" "" 5 (by decide)

/-- C7 counterexample: with block edges in BOTH directions between a and
b, `POST /api/messages` from a to b still persists the message — the
route never consults the blocks table. -/
theorem postMessages_block_counterexample :
    (∃ bl ∈ blockDemoStore.blocks,
        (bl.blockerId = "a" ∧ bl.blockedId = "b") ∨
        (bl.blockerId = "b" ∧ bl.blockedId = "a")) ∧
    ((postMessages blockDemoStore "a" "b" "hi" 0).2).messages =
      [{ id := 1, senderId := "a", receiverId := "b", content := "hi",
         isRead := false, createdAt := 0 }] := by
  decide

/-- C7 amended: the send-message route performs no block check: even when
a block edge exists in either direction between sender and receiver, the
message is persisted. -/
theorem postMessages_ignores_blocks (s : Store) (a b content : String) (now : Nat)
    ( _hblk : ∃ bl ∈ s.blocks,
      (bl.blockerId = a ∧ bl.blockedId = b) ∨ (bl.blockerId = b ∧ bl.blockedId = a)) :
    ((postMessages s a b content now).2).messages.length = s.messages.length + 1
  ∧ (postMessages s a b content now).1.senderId = a
  ∧ (postMessages s a b content now).1.receiverId = b
  ∧ (postMessages s a b content now).1 ∈ ((postMessages s a b content now).2).messages := by
  refine ⟨?_, rfl, rfl, ?_⟩
  · simp [postMessages, sendMessage]
  · simp [postMessages, sendMessage]

/-- C7 witness: the amended theorem on the store holding blocks in both
directions. -/
theorem postMessages_ignores_blocks_witness :
    ((postMessages blockDemoStore "a" "b" "yo" 7).2).messages.length =
        blockDemoStore.messages.length + 1
  ∧ (postMessages blockDemoStore "a" "b" "yo" 7).1.senderId = "a"
  ∧ (postMessages blockDemoStore "a" "b" "yo" 7).1.receiverId = "b"
  ∧ (postMessages blockDemoStore "a" "b" "yo" 7).1 ∈
      ((postMessages blockDemoStore "a" "b" "yo" 7).2).messages :=
  postMessages_ignores_blocks blockDemoStore "a" "b" "yo" 7 (by decide)

/-- C8 counterexample: calling `markMessageAsRead` as a non-receiver is a
silent no-op that completes normally, where the claim (and the
spec-modelled `markReadSpec`) demands a Forbidden failure: the code
returns the unchanged store while the spec model returns the error. -/
theorem markMessageAsRead_no_forbidden_counterexample :
    markMessageAsRead readDemoStore 1 "a" = readDemoStore ∧
    markReadSpec readDemoStore 1 "a" = Except.error ApiErr.forbidden := by
  exact ⟨rfl, rfl⟩

/-- C8 amended: `markMessageAsRead` flips isRead to true exactly for the
message whose id matches AND whose receiver is the caller, and leaves any
message that does not satisfy both conditions byte-for-byte unchanged; no
error is ever reported. -/
theorem markMessageAsRead_receiver_only (s : Store) (mid : Nat) (a : String)
    (m : Msg) (hm : m ∈ s.messages) :
    ((m.id = mid ∧ m.receiverId = a) →
       { m with isRead := true } ∈ (markMessageAsRead s mid a).messages)
  ∧ (¬(m.id = mid ∧ m.receiverId = a) →
       m ∈ (markMessageAsRead s mid a).messages) := by
  constructor
  · intro h
    have hf : (if m.id = mid ∧ m.receiverId = a then { m with isRead := true } else m) ∈
        (markMessageAsRead s mid a).messages :=
      List.mem_map_of_mem _ hm
    rwa [if_pos h] at hf
  · intro h
    have hf : (if m.id = mid ∧ m.receiverId = a then { m with isRead := true } else m) ∈
        (markMessageAsRead s mid a).messages :=
      List.mem_map_of_mem _ hm
    rwa [if_neg h] at hf

/-- C8 witness: the true receiver marking the demo message flips it. -/
theorem markMessageAsRead_receiver_only_witness :
    ({ id := 1, senderId := "a", receiverId := "b", content := "hi",
       isRead := true, createdAt := 1 } : Msg) ∈
      (markMessageAsRead readDemoStore 1 "b").messages :=
  (markMessageAsRead_receiver_only readDemoStore 1 "b"
      { id := 1, senderId := "a", receiverId := "b", content := "hi",
        isRead := false, createdAt := 1 }
      (by decide)).1 ⟨rfl, rfl⟩

/-- C9: every row returned by `getConversation` (and by
`getConversations`) carries a receiver field equal to its sender field;
both are the user looked up by the row senderId, so the receiver object
describes the sending user, not the receiving one. -/
theorem conversation_receiver_is_sender_join (s : Store) (u1 u2 u : String)
    (r : MessageWithUsers) :
    (r ∈ getConversation s u1 u2 →
       r.receiver = r.sender ∧ r.sender = findUser s r.msg.senderId)
  ∧ (r ∈ getConversations s u →
       r.receiver = r.sender ∧ r.sender = findUser s r.msg.senderId) := by
  constructor
  · intro hr
    unfold getConversation at hr
    rcases List.mem_map.mp hr with ⟨m, _, rfl⟩
    exact ⟨rfl, rfl⟩
  · intro hr
    unfold getConversations at hr
    rcases List.mem_map.mp hr with ⟨m, _, rfl⟩
    exact ⟨rfl, rfl⟩

/-- C9 witness: the first row of the demo conversation between a and b:
its receiver field is the joined SENDER user record. -/
theorem conversation_receiver_is_sender_join_witness :
    convDemoRow.receiver = convDemoRow.sender ∧
    convDemoRow.sender = findUser convDemoStore convDemoRow.msg.senderId :=
  (conversation_receiver_is_sender_join convDemoStore "a" "b" "a" convDemoRow).1
    (by decide)

/-- C10: `removeLike` deletes exactly the stored like edges with the given
ordered pair; when no such edge exists it is a silent no-op leaving the
store unchanged, and the DELETE route reports success either way. -/
theorem removeLike_spec (s : Store) (a b : String) :
    (∀ l : Like, l ∈ (removeLike s a b).likes ↔
        (l ∈ s.likes ∧ ¬(l.likerId = a ∧ l.likedId = b)))
  ∧ ((∀ l ∈ s.likes, ¬(l.likerId = a ∧ l.likedId = b)) → removeLike s a b = s)
  ∧ (deleteLikesRoute s a b).1 = true := by
  refine ⟨?_, ?_, rfl⟩
  · intro l
    unfold removeLike
    simp only [List.mem_filter, decide_eq_true_eq]
  · intro h
    unfold removeLike
    have hfil : s.likes.filter
        (fun l => decide (¬(l.likerId = a ∧ l.likedId = b))) = s.likes := by
      apply List.filter_eq_self.mpr
      intro l hl
      exact decide_eq_true (h l hl)
    rw [hfil]

/-- C10 witness: removing a non-existent edge (a, b) from a store holding
only the edge (x, y) leaves the store unchanged and reports success. -/
theorem removeLike_spec_witness :
    removeLike likeDemoStore "a" "b" = likeDemoStore ∧
    (deleteLikesRoute likeDemoStore "a" "b").1 = true :=
  ⟨(removeLike_spec likeDemoStore "a" "b").2.1 (by decide),
   (removeLike_spec likeDemoStore "a" "b").2.2⟩
